import Mathlib

/-!
Shallow embedding of `src/Stats.js` (a fork of stats.js, REVISION 17).

The file models the two exports of the source:

* `StatsPanel(name, fg, bg, width, height, showMaximum)` — a drawable panel
  tracking a running minimum/maximum and rendering a scrolling bar graph onto
  a fixed canvas (source lines 13-100);
* `Stats(width, height, showMaximum)` — the overlay container with
  `addPanel` / `showPanel` and the built-in FPS / MS / optional MB panels
  (source lines 120-162).

JavaScript numbers are modelled as exact rationals extended with the three
non-finite values (`Infinity`, `-Infinity`, `NaN`); IEEE-754 rounding of
finite arithmetic is not modelled.  The 2D canvas context is modelled as a
state (a pixel map over rational coordinates, the current fill style and the
current global alpha) together with a small-step semantics of the five
context operations the source uses.  Text rasterisation is font dependent,
so the set of points covered by a `fillText` call is an arbitrary parameter
of the semantics.
-/

/-- A JavaScript number: a finite rational or one of the three
non-finite values. -/
inductive JSVal where
  | nan : JSVal
  | inf : JSVal
  | ninf : JSVal
  | fin : ℚ → JSVal
deriving DecidableEq, Repr

/-- JavaScript `Number.isFinite`. -/
def JSVal.isFinite : JSVal → Bool
  | .fin _ => true
  | _ => false

/-- JavaScript `Math.round` on a finite number: round half toward
positive infinity. -/
def jround (q : ℚ) : ℤ := ⌊q + 1 / 2⌋

/-- JavaScript `Math.round` extended to non-finite values (it returns
them unchanged). -/
def jsRound : JSVal → JSVal
  | .fin q => .fin ((jround q : ℤ) : ℚ)
  | x => x

/-- JavaScript `Math.min` (propagates `NaN`). -/
def jsMin (a b : JSVal) : JSVal :=
  match a, b with
  | .nan, _ => .nan
  | _, .nan => .nan
  | .ninf, _ => .ninf
  | _, .ninf => .ninf
  | .inf, x => x
  | x, .inf => x
  | .fin p, .fin q => .fin (min p q)

/-- JavaScript `Math.max` (propagates `NaN`). -/
def jsMax (a b : JSVal) : JSVal :=
  match a, b with
  | .nan, _ => .nan
  | _, .nan => .nan
  | .inf, _ => .inf
  | _, .inf => .inf
  | .ninf, x => x
  | x, .ninf => x
  | .fin p, .fin q => .fin (max p q)

/-- JavaScript `<=` on numbers: every comparison involving `NaN` is false. -/
def jsLe (a b : JSVal) : Bool :=
  match a, b with
  | .nan, _ => false
  | _, .nan => false
  | .ninf, _ => true
  | _, .ninf => false
  | _, .inf => true
  | .inf, _ => false
  | .fin p, .fin q => decide (p ≤ q)

/-- JavaScript division of two finite numbers: division by zero yields a
non-finite value depending on the sign of the numerator. -/
def jsDiv (a b : ℚ) : JSVal :=
  if b = 0 then (if a = 0 then .nan else if 0 < a then .inf else .ninf)
  else .fin (a / b)

/-- Subtraction of a JavaScript number from a finite one. -/
def jsSubFin (a : ℚ) : JSVal → JSVal
  | .fin q => .fin (a - q)
  | .inf => .ninf
  | .ninf => .inf
  | .nan => .nan

/-- Multiplication of a JavaScript number by a finite one
(an infinity times zero is `NaN`). -/
def jsMulFin (x : JSVal) (g : ℚ) : JSVal :=
  match x with
  | .fin q => .fin (q * g)
  | .inf => if g = 0 then .nan else if 0 < g then .inf else .ninf
  | .ninf => if g = 0 then .nan else if 0 < g then .ninf else .inf
  | .nan => .nan

/-- Conversion of a finite JavaScript number to a string inside a template
literal.  Integral values print as decimal integers, which is the only case
the source exercises with its rounded values; the decimal shortest-roundtrip
rendering of non-integral doubles is not modelled. -/
def jsNumToString (q : ℚ) : String :=
  if q.den = 1 then toString q.num else toString q

/-- Template-literal rendering of a JavaScript number. -/
def jsValString : JSVal → String
  | .fin q => jsNumToString q
  | .inf => "Infinity"
  | .ninf => "-Infinity"
  | .nan => "NaN"

/-- The running statistics of a panel: the `min` and `max` locals of
`StatsPanel` (source lines 14-15). -/
structure PanelStats where
  min : JSVal
  max : JSVal
deriving DecidableEq, Repr

/-- Initial statistics: `let min = Infinity; let max = 0;`
(source lines 14-15). -/
def initStats : PanelStats := { min := .inf, max := .fin 0 }

/-- The statistics step performed at the top of `update`
(source lines 66-67): `min = Math.min(min, value); max = Math.max(max, value)`. -/
def stepStats (s : PanelStats) (value : ℚ) : PanelStats :=
  { min := jsMin s.min (.fin value), max := jsMax s.max (.fin value) }

/-- The statistics after a finite sequence of `update` calls with the given
values, starting from a freshly constructed panel. -/
def runStats (vs : List ℚ) : PanelStats :=
  vs.foldl stepStats initStats

/-- The resolution scale factor `PR = round(window.devicePixelRatio || 1)`
(source line 18).  A device pixel ratio of `0` is falsy in JavaScript, so it
is replaced by `1` before rounding. -/
def PRval (dpr : ℚ) : ℤ :=
  jround (if dpr = 0 then 1 else dpr)

/-- A pixel of the canvas.  `clear` is the transparent-black initial state of
a fresh canvas; `solid c` is an opaque fill with the CSS color `c`;
`over c a p` is a fill with color `c` composited at global alpha `a` over the
previous pixel `p`; `glyph s c a p` is a pixel touched by rendering the text
`s` with fill color `c` at alpha `a` over `p`; `imgOver q a p` is an image
pixel `q` composited at alpha `a` over `p`. -/
inductive Pixel where
  | clear : Pixel
  | solid : String → Pixel
  | over : String → ℚ → Pixel → Pixel
  | glyph : String → String → ℚ → Pixel → Pixel
  | imgOver : Pixel → ℚ → Pixel → Pixel
deriving DecidableEq, Repr

/-- The state of a 2D canvas context: the pixel map and the two pieces of
context state the source mutates (`fillStyle` and `globalAlpha`). -/
structure Ctx where
  pixels : ℚ → ℚ → Pixel
  fillStyle : String
  globalAlpha : ℚ

/-- The canvas-context operations used by `StatsPanel`.  `drawImageSelf` is
the nine-argument `drawImage` with the context's own canvas as source. -/
inductive Op where
  | setFillStyle : String → Op
  | setGlobalAlpha : ℚ → Op
  | fillRect : JSVal → JSVal → JSVal → JSVal → Op
  | fillText : String → ℚ → ℚ → Op
  | drawImageSelf : ℚ → ℚ → ℚ → ℚ → ℚ → ℚ → ℚ → ℚ → Op
deriving DecidableEq, Repr

/-- Which points a text drawing covers.  Glyph coverage depends on the font
and the runtime's rasteriser, so it is a parameter of the semantics:
`tc s x y px py` tells whether rendering string `s` at origin `(x, y)`
touches the point `(px, py)`. -/
def TextCover : Type := String → ℚ → ℚ → ℚ → ℚ → Bool

/-- Membership of the point `(px, py)` in the half-open rectangle with
origin `(x, y)`, width `w` and height `h`. -/
def inRect (x y w h px py : ℚ) : Bool :=
  decide (x ≤ px) && decide (px < x + w) && decide (y ≤ py) && decide (py < y + h)

/-- The pixel produced by a fill with color `c` at global alpha `a` over the
pixel `p`: alpha one replaces the pixel, any other alpha composites. -/
def paint (c : String) (a : ℚ) (p : Pixel) : Pixel :=
  if a = 1 then .solid c else .over c a p

/-- Small-step semantics of one context operation.  `fillRect` with a
non-finite argument is a no-op, as the HTML canvas specification requires.
`drawImageSelf` samples the source rectangle of the pre-state, so a
self-overlapping blit behaves as an atomic copy, which is what the canvas
`drawImage` guarantees when source and destination are the same canvas. -/
def applyOp (tc : TextCover) (s : Ctx) : Op → Ctx
  | .setFillStyle c => { s with fillStyle := c }
  | .setGlobalAlpha a => { s with globalAlpha := a }
  | .fillRect xv yv wv hv =>
    match xv, yv, wv, hv with
    | .fin x, .fin y, .fin w, .fin h =>
      { s with pixels := fun px py =>
          if inRect x y w h px py then paint s.fillStyle s.globalAlpha (s.pixels px py)
          else s.pixels px py }
    | _, _, _, _ => s
  | .fillText str x y =>
    { s with pixels := fun px py =>
        if tc str x y px py then .glyph str s.fillStyle s.globalAlpha (s.pixels px py)
        else s.pixels px py }
  | .drawImageSelf sx sy sw sh dx dy dw dh =>
    { s with pixels := fun px py =>
        if inRect dx dy dw dh px py then
          (if s.globalAlpha = 1 then
            s.pixels (sx + (px - dx) * (sw / dw)) (sy + (py - dy) * (sh / dh))
          else
            .imgOver (s.pixels (sx + (px - dx) * (sw / dw)) (sy + (py - dy) * (sh / dh)))
              s.globalAlpha (s.pixels px py))
        else s.pixels px py }

/-- Left fold of the operation semantics over a list of operations. -/
def applyOps (tc : TextCover) (s : Ctx) (ops : List Op) : Ctx :=
  ops.foldl (applyOp tc) s

/-- The derived pixel geometry of a panel, computed once at construction
(source lines 18-27).  All fields are in physical pixels. -/
structure PanelGeom where
  PR : ℚ
  WIDTH : ℚ
  HEIGHT : ℚ
  TEXT_X : ℚ
  TEXT_Y : ℚ
  GRAPH_X : ℚ
  GRAPH_Y : ℚ
  GRAPH_WIDTH : ℚ
  GRAPH_HEIGHT : ℚ
deriving DecidableEq, Repr

/-- The geometry `StatsPanel` derives from its logical width and height and
the ambient device pixel ratio (source lines 18-27). -/
def mkGeom (width height dpr : ℚ) : PanelGeom :=
  { PR := ((PRval dpr : ℤ) : ℚ)
    WIDTH := width * ((PRval dpr : ℤ) : ℚ)
    HEIGHT := height * ((PRval dpr : ℤ) : ℚ)
    TEXT_X := 3 * ((PRval dpr : ℤ) : ℚ)
    TEXT_Y := 2 * (height / 48) * ((PRval dpr : ℤ) : ℚ)
    GRAPH_X := 3 * ((PRval dpr : ℤ) : ℚ)
    GRAPH_Y := 15 * ((PRval dpr : ℤ) : ℚ)
    GRAPH_WIDTH := (width - 6) * ((PRval dpr : ℤ) : ℚ)
    GRAPH_HEIGHT := (height - 18) * (height / 48) * ((PRval dpr : ℤ) : ℚ) }

/-- The panel object returned by `StatsPanel` (source lines 49-99):
construction parameters, derived geometry, the overridable
`evaluateStatsColor` method, the running statistics and the canvas state. -/
structure Panel where
  name : String
  fg : String
  bg : String
  showMaximum : Bool
  geom : PanelGeom
  evaluateStatsColor : ℚ → ℚ → String
  stats : PanelStats
  ctx : Ctx

/-- The string drawn by `update` (source lines 74-78): the two template
literals of the `showMaximum` conditional, applied to the rounded current
value and the rounded running minimum and maximum. -/
def panelText (name : String) (showMaximum : Bool) (value maxValue : ℚ)
    (mn mx : JSVal) : String :=
  if showMaximum then
    jsValString (jsRound (.fin value)) ++ name ++ " (" ++ jsValString (jsRound mn)
      ++ "-" ++ jsValString (jsRound mx) ++ ")/" ++ jsNumToString maxValue
  else
    jsValString (jsRound (.fin value)) ++ name ++ " (" ++ jsValString (jsRound mn)
      ++ "-" ++ jsValString (jsRound mx) ++ ")"

/-- The height argument of the final `fillRect` of `update` (source line 96):
`round((1 - (value / maxValue)) * GRAPH_HEIGHT)` in JavaScript arithmetic. -/
def capHeight (value maxValue GH : ℚ) : JSVal :=
  jsRound (jsMulFin (jsSubFin 1 (jsDiv value maxValue)) GH)

/-- The sequence of context operations performed by one call of
`update(value, maxValue)` (source lines 69-96), in source order.  The text
uses the statistics after the widening step of lines 66-67, and the display
color is the result of the overridable `evaluateStatsColor` method. -/
def Panel.updateOps (p : Panel) (value maxValue : ℚ) : List Op :=
  [ .setFillStyle p.bg,
    .setGlobalAlpha 1,
    .fillRect (.fin 0) (.fin 0) (.fin p.geom.WIDTH) (.fin p.geom.GRAPH_Y),
    .setFillStyle (p.evaluateStatsColor value maxValue),
    .fillText
      (panelText p.name p.showMaximum value maxValue
        (stepStats p.stats value).min (stepStats p.stats value).max)
      p.geom.TEXT_X p.geom.TEXT_Y,
    .drawImageSelf (p.geom.GRAPH_X + p.geom.PR) p.geom.GRAPH_Y
      (p.geom.GRAPH_WIDTH - p.geom.PR) p.geom.GRAPH_HEIGHT
      p.geom.GRAPH_X p.geom.GRAPH_Y
      (p.geom.GRAPH_WIDTH - p.geom.PR) p.geom.GRAPH_HEIGHT,
    .fillRect (.fin (p.geom.GRAPH_X + p.geom.GRAPH_WIDTH - p.geom.PR))
      (.fin p.geom.GRAPH_Y) (.fin p.geom.PR) (.fin p.geom.GRAPH_HEIGHT),
    .setFillStyle p.bg,
    .setGlobalAlpha (9 / 10),
    .fillRect (.fin (p.geom.GRAPH_X + p.geom.GRAPH_WIDTH - p.geom.PR))
      (.fin p.geom.GRAPH_Y) (.fin p.geom.PR)
      (capHeight value maxValue p.geom.GRAPH_HEIGHT) ]

/-- The canvas state after the first `k` operations of one
`update(value, maxValue)` call. -/
def Panel.ctxAfter (tc : TextCover) (p : Panel) (value maxValue : ℚ) (k : ℕ) : Ctx :=
  applyOps tc p.ctx ((p.updateOps value maxValue).take k)

/-- A full `update(value, maxValue)` call: widen the statistics, then run
all ten context operations. -/
def Panel.update (tc : TextCover) (p : Panel) (value maxValue : ℚ) : Panel :=
  { p with
      stats := stepStats p.stats value
      ctx := applyOps tc p.ctx (p.updateOps value maxValue) }

/-- The construction-time drawing of `StatsPanel` (source lines 38-47):
background fill, label text, foreground graph fill, then the translucent
background wash over the graph. -/
def constructOps (name fg bg : String) (g : PanelGeom) : List Op :=
  [ .setFillStyle bg,
    .fillRect (.fin 0) (.fin 0) (.fin g.WIDTH) (.fin g.HEIGHT),
    .setFillStyle fg,
    .fillText name g.TEXT_X g.TEXT_Y,
    .fillRect (.fin g.GRAPH_X) (.fin g.GRAPH_Y) (.fin g.GRAPH_WIDTH) (.fin g.GRAPH_HEIGHT),
    .setFillStyle bg,
    .setGlobalAlpha (9 / 10),
    .fillRect (.fin g.GRAPH_X) (.fin g.GRAPH_Y) (.fin g.GRAPH_WIDTH) (.fin g.GRAPH_HEIGHT) ]

/-- The `StatsPanel` constructor (source lines 13-100): fresh statistics, the
derived geometry, the default color policy returning the foreground color,
and the canvas state after the construction-time drawing on a transparent
canvas (whose context starts with black fill style and alpha one). -/
def StatsPanel (tc : TextCover) (name fg bg : String) (width height : ℚ)
    (showMaximum : Bool) (dpr : ℚ) : Panel :=
  { name := name
    fg := fg
    bg := bg
    showMaximum := showMaximum
    geom := mkGeom width height dpr
    evaluateStatsColor := fun _ _ => fg
    stats := initStats
    ctx := applyOps tc
      { pixels := fun _ _ => .clear, fillStyle := "#000000", globalAlpha := 1 }
      (constructOps name fg bg (mkGeom width height dpr)) }

/-- A child of the overlay container: the root DOM element of one registered
panel.  `label` records which panel the element belongs to, `display` its
inline display style (`none` when no inline style has been set, which leaves
the element visible with its default display). -/
structure Child where
  label : String
  display : Option String
deriving DecidableEq, Repr

/-- An element with no inline display style, or with one other than the
string none, is rendered; only display none hides it. -/
def isVisible (c : Child) : Bool := c.display ≠ some "none"

/-- The mutable state captured by the `Stats` closure (source lines 121-136):
the container's ordered children and the `currentPanelIndex` variable. -/
structure OverlayState where
  children : List Child
  currentPanelIndex : ℤ
deriving DecidableEq, Repr

/-- The loop body of `showPanel` (source lines 131-133): walk the children
with a counter starting at `i`, set the display style of the child whose
counter strictly equals `id` to block and every other one to none. -/
def setDisplays (id : ℤ) : ℕ → List Child → List Child
  | _, [] => []
  | i, c :: cs =>
    { c with display := some (if (i : ℤ) = id then "block" else "none") }
      :: setDisplays id (i + 1) cs

/-- `showPanel(id)` (source lines 130-136): set every child's display style,
then record `id` in the closure variable `currentPanelIndex`. -/
def showPanel (s : OverlayState) (id : ℤ) : OverlayState :=
  { children := setDisplays id 0 s.children, currentPanelIndex := id }

/-- `addPanel(panel)` (source lines 125-128): append the panel's root element
to the container; nothing else changes. -/
def addPanel (s : OverlayState) (c : Child) : OverlayState :=
  { s with children := s.children ++ [c] }

/-- The object returned by `Stats` (source lines 148-161).  The
`currentPanelIndex` property of the object literal copies the value the
closure variable holds at return time; later mutations of the closure
variable do not change the property. -/
structure StatsObj where
  REVISION : ℤ
  currentPanelIndex : ℤ
  state : OverlayState
deriving DecidableEq, Repr

/-- The root element of a freshly constructed panel: a new canvas, which has
no inline display style. -/
def freshChild (label : String) : Child := { label := label, display := none }

/-- The `Stats` constructor (source lines 120-162): start with an empty
container and `currentPanelIndex = 0`, register the FPS and MS panels, then
the MB panel when the environment reports `window.performance.memory`
(`hasMemory`, an environment capability read once here), call `showPanel(0)`,
and return the object, whose `currentPanelIndex` property snapshots the
closure variable. -/
def mkStats (hasMemory : Bool) : StatsObj :=
  let s0 : OverlayState := { children := [], currentPanelIndex := 0 }
  let s1 := addPanel s0 (freshChild "FPS")
  let s2 := addPanel s1 (freshChild "MS")
  let s3 := if hasMemory then addPanel s2 (freshChild "MB") else s2
  let s4 := showPanel s3 0
  { REVISION := 17, currentPanelIndex := s4.currentPanelIndex, state := s4 }

/-- A host call of the returned object's `showPanel` method (the method is
the closure function itself): it mutates the closure state, while the
object's `currentPanelIndex` property keeps the value copied at
construction. -/
def hostShowPanel (o : StatsObj) (id : ℤ) : StatsObj :=
  { o with state := showPanel o.state id }

/-- A host call of the returned object's `addPanel` method. -/
def hostAddPanel (o : StatsObj) (c : Child) : StatsObj :=
  { o with state := addPanel o.state c }

/-- The text format of section 4.4 step 3 of the specification, stated in
the specification's own words: the rounded value, the label, the rounded
running minimum and maximum in parentheses, and, exactly when show-maximum
is enabled, a slash and the nominal maximum appended. -/
def spec_update_text (label : String) (showMaximum : Bool) (value maxValue : ℚ)
    (mn mx : ℚ) : String :=
  toString (jround value) ++ label ++ " (" ++ toString (jround mn) ++ "-"
    ++ toString (jround mx) ++ ")"
    ++ (if showMaximum then "/" ++ jsNumToString maxValue else "")

/-- A text coverage with empty glyphs, used to instantiate the semantics on
concrete inputs. -/
def tcNone : TextCover := fun _ _ _ _ _ => false

/-- A concrete panel: `new StatsPanel('FPS', '#0ff', '#002')` with the
default width 80, height 48, show-maximum false, at device pixel ratio 1. -/
def panelFPS : Panel := StatsPanel tcNone "FPS" "#0ff" "#002" 80 48 false 1

theorem jsLe_refl (a : JSVal) (h : a ≠ .nan) : jsLe a a = true := by
  cases a <;> simp_all [jsLe]

theorem jsLe_trans {a b c : JSVal} (h1 : jsLe a b = true) (h2 : jsLe b c = true) :
    jsLe a c = true := by
  cases a <;> cases b <;> cases c <;> simp_all [jsLe]
  exact le_trans h1 h2

theorem stepStats_min_notNan {s : PanelStats} (h : s.min ≠ .nan) (v : ℚ) :
    (stepStats s v).min ≠ .nan := by
  cases hm : s.min <;> simp_all [stepStats, jsMin]

theorem stepStats_max_notNan {s : PanelStats} (h : s.max ≠ .nan) (v : ℚ) :
    (stepStats s v).max ≠ .nan := by
  cases hm : s.max <;> simp_all [stepStats, jsMax]

theorem stepStats_min_le_val {s : PanelStats} (h : s.min ≠ .nan) (v : ℚ) :
    jsLe (stepStats s v).min (.fin v) = true := by
  cases hm : s.min <;> simp_all [stepStats, jsMin, jsLe]

theorem stepStats_min_le_self {s : PanelStats} (h : s.min ≠ .nan) (v : ℚ) :
    jsLe (stepStats s v).min s.min = true := by
  cases hm : s.min <;> simp_all [stepStats, jsMin, jsLe]

theorem stepStats_max_ge_val {s : PanelStats} (h : s.max ≠ .nan) (v : ℚ) :
    jsLe (.fin v) (stepStats s v).max = true := by
  cases hm : s.max <;> simp_all [stepStats, jsMax, jsLe]

theorem stepStats_max_ge_self {s : PanelStats} (h : s.max ≠ .nan) (v : ℚ) :
    jsLe s.max (stepStats s v).max = true := by
  cases hm : s.max <;> simp_all [stepStats, jsMax, jsLe]

theorem foldl_min_notNan :
    ∀ (vs : List ℚ) (s : PanelStats), s.min ≠ .nan →
      (vs.foldl stepStats s).min ≠ .nan := by
  intro vs
  induction vs with
  | nil => intro s h; simpa using h
  | cons v vs ih =>
    intro s h
    simpa using ih (stepStats s v) (stepStats_min_notNan h v)

theorem foldl_max_notNan :
    ∀ (vs : List ℚ) (s : PanelStats), s.max ≠ .nan →
      (vs.foldl stepStats s).max ≠ .nan := by
  intro vs
  induction vs with
  | nil => intro s h; simpa using h
  | cons v vs ih =>
    intro s h
    simpa using ih (stepStats s v) (stepStats_max_notNan h v)

theorem foldl_min_le :
    ∀ (vs : List ℚ) (s : PanelStats), s.min ≠ .nan →
      jsLe (vs.foldl stepStats s).min s.min = true := by
  intro vs
  induction vs with
  | nil => intro s h; simpa using jsLe_refl s.min h
  | cons v vs ih =>
    intro s h
    have h1 := ih (stepStats s v) (stepStats_min_notNan h v)
    have h2 := stepStats_min_le_self h v
    simpa using jsLe_trans h1 h2

theorem foldl_max_ge :
    ∀ (vs : List ℚ) (s : PanelStats), s.max ≠ .nan →
      jsLe s.max (vs.foldl stepStats s).max = true := by
  intro vs
  induction vs with
  | nil => intro s h; simpa using jsLe_refl s.max h
  | cons v vs ih =>
    intro s h
    have h1 := ih (stepStats s v) (stepStats_max_notNan h v)
    have h2 := stepStats_max_ge_self h v
    simpa using jsLe_trans h2 h1

theorem runStats_min_notNan (vs : List ℚ) : (runStats vs).min ≠ .nan :=
  foldl_min_notNan vs initStats (by simp [initStats])

theorem runStats_max_notNan (vs : List ℚ) : (runStats vs).max ≠ .nan :=
  foldl_max_notNan vs initStats (by simp [initStats])

theorem runStats_take_succ (vs : List ℚ) (i : ℕ) (h : i < vs.length) :
    runStats (vs.take (i + 1)) = stepStats (runStats (vs.take i)) vs[i] := by
  rw [← List.take_concat_get vs i h, List.concat_eq_append, runStats, runStats,
    List.foldl_append]
  rfl

theorem runStats_take_le (vs : List ℚ) (i j : ℕ) (hij : i ≤ j) :
    runStats (vs.take j) =
      ((vs.take j).drop i).foldl stepStats (runStats (vs.take i)) := by
  have h1 : (vs.take j).take i = vs.take i := by
    rw [List.take_take, min_eq_left hij]
  calc runStats (vs.take j)
      = runStats ((vs.take j).take i ++ (vs.take j).drop i) := by
        rw [List.take_append_drop]
    _ = ((vs.take j).drop i).foldl stepStats (runStats (vs.take i)) := by
        rw [runStats, List.foldl_append, h1]; rfl

/-- Claim C2: for every panel and every finite sequence of update calls,
after each call the tracked minimum is less than or equal to the call's
value and the tracked maximum is greater than or equal to it (in JavaScript
number comparison); across the sequence the minimum is non-increasing and
the maximum non-decreasing; the maximum is always at least zero; the
minimum starts at positive infinity and the maximum at zero; and each
update call advances the tracked statistics by exactly one widening step. -/
theorem C2_min_max_tracking (vs : List ℚ) :
    (∀ i (h : i < vs.length),
        jsLe (runStats (vs.take (i + 1))).min (.fin vs[i]) = true ∧
        jsLe (.fin vs[i]) (runStats (vs.take (i + 1))).max = true) ∧
    (∀ i j : ℕ, i ≤ j →
        jsLe (runStats (vs.take j)).min (runStats (vs.take i)).min = true ∧
        jsLe (runStats (vs.take i)).max (runStats (vs.take j)).max = true) ∧
    (∀ i : ℕ, jsLe (.fin 0) (runStats (vs.take i)).max = true) ∧
    initStats.min = .inf ∧ initStats.max = .fin 0 ∧
    (∀ (tc : TextCover) (p : Panel) (v m : ℚ),
        (Panel.update tc p v m).stats = stepStats p.stats v) := by
  refine ⟨?_, ?_, ?_, rfl, rfl, fun tc p v m => rfl⟩
  · intro i h
    rw [runStats_take_succ vs i h]
    exact ⟨stepStats_min_le_val (runStats_min_notNan _) _,
      stepStats_max_ge_val (runStats_max_notNan _) _⟩
  · intro i j hij
    rw [runStats_take_le vs i j hij]
    exact ⟨foldl_min_le _ _ (runStats_min_notNan _),
      foldl_max_ge _ _ (runStats_max_notNan _)⟩
  · intro i
    have h := foldl_max_ge (vs.take i) initStats (by simp [initStats])
    simpa [initStats, runStats] using h

theorem C2_min_max_tracking_witness :
    jsLe (runStats ([(10 : ℚ), 50].take 2)).min (.fin 50) = true ∧
    jsLe (.fin (50 : ℚ)) (runStats ([(10 : ℚ), 50].take 2)).max = true ∧
    jsLe (runStats ([(10 : ℚ), 50].take 2)).min
      (runStats ([(10 : ℚ), 50].take 1)).min = true ∧
    jsLe (.fin 0) (runStats ([(10 : ℚ), 50].take 2)).max = true := by
  obtain ⟨h1, h2, h3, -⟩ := C2_min_max_tracking [10, 50]
  have ha := h1 1 (by norm_num)
  exact ⟨ha.1, ha.2, (h2 1 2 (by norm_num)).1, h3 2⟩

theorem setDisplays_length (id : ℤ) :
    ∀ (k : ℕ) (cs : List Child), (setDisplays id k cs).length = cs.length := by
  intro k cs
  induction cs generalizing k with
  | nil => rfl
  | cons c cs ih => simp [setDisplays, ih]

theorem setDisplays_get (id : ℤ) :
    ∀ (cs : List Child) (k n : ℕ) (h : n < (setDisplays id k cs).length)
      (h' : n < cs.length),
      (setDisplays id k cs).get ⟨n, h⟩ =
        { cs.get ⟨n, h'⟩ with
            display := some (if ((k + n : ℕ) : ℤ) = id then "block" else "none") } := by
  intro cs
  induction cs with
  | nil => intro k n h h'; exact absurd h' (by simp)
  | cons c cs ih =>
    intro k n h h'
    cases n with
    | zero => simp [setDisplays]
    | succ m =>
      have hm : m < cs.length := by simpa using h'
      have hh : m < (setDisplays id (k + 1) cs).length := by
        rw [setDisplays_length]; exact hm
      have he : k + 1 + m = k + (m + 1) := by omega
      simp only [setDisplays, List.get_cons_succ]
      rw [ih (k + 1) m hh hm, he]

theorem setDisplays_countP (id : ℤ) :
    ∀ (cs : List Child) (k : ℕ),
      (setDisplays id k cs).countP isVisible =
        if (k : ℤ) ≤ id ∧ id < (k : ℤ) + cs.length then 1 else 0 := by
  intro cs
  induction cs with
  | nil =>
    intro k
    have hno : ¬ ((k : ℤ) ≤ id ∧ id < (k : ℤ)) := by omega
    simp [setDisplays, hno]
  | cons c cs ih =>
    intro k
    rw [setDisplays, List.countP_cons, ih (k + 1)]
    by_cases hk : (k : ℤ) = id
    · have h1 : ¬ (((k + 1 : ℕ) : ℤ) ≤ id ∧ id < ((k + 1 : ℕ) : ℤ) + cs.length) := by
        push_cast; omega
      have h2 : (k : ℤ) ≤ id ∧ id < (k : ℤ) + (c :: cs).length := by
        simp only [List.length_cons]; push_cast; omega
      simp [h1, h2, hk, isVisible]
    · have h1 : (((k + 1 : ℕ) : ℤ) ≤ id ∧ id < ((k + 1 : ℕ) : ℤ) + cs.length) ↔
          ((k : ℤ) ≤ id ∧ id < (k : ℤ) + (c :: cs).length) := by
        simp only [List.length_cons]; push_cast; omega
      rw [if_congr h1 rfl rfl]
      simp [hk, isVisible]

/-- Claim C6: `showPanel` performs no bounds check.  After `showPanel(i)`
followed by `showPanel(j)` with both indices in range and `j` distinct from
`i`, exactly one registered panel is visible, namely panel `j`, whose display
style is block, while every other panel has display style none; for any
out-of-range index the call sets every registered panel's display style to
none (and, the loop being total, no error is raised — `showPanel` here is a
total function on states). -/
theorem C6_showPanel_bounds (s : OverlayState) (i j : ℤ) :
    (0 ≤ i → i < (s.children.length : ℤ) → 0 ≤ j → j < (s.children.length : ℤ) →
      j ≠ i →
      (∀ k (h : k < (showPanel (showPanel s i) j).children.length),
        ((showPanel (showPanel s i) j).children.get ⟨k, h⟩).display =
          some (if (k : ℤ) = j then "block" else "none")) ∧
      (showPanel (showPanel s i) j).children.countP isVisible = 1) ∧
    ((i < 0 ∨ (s.children.length : ℤ) ≤ i) →
      ∀ k (h : k < (showPanel s i).children.length),
        ((showPanel s i).children.get ⟨k, h⟩).display = some "none") := by
  constructor
  · intro _ _ h0j hj _
    constructor
    · intro k h
      have h' : k < (setDisplays i 0 s.children).length := by
        have := h
        simp only [showPanel] at this
        rwa [setDisplays_length] at this
      have := setDisplays_get j (setDisplays i 0 s.children) 0 k h h'
      simp only [showPanel]
      rw [this]
      simp
    · have hlen : ((setDisplays i 0 s.children).length : ℤ) = s.children.length := by
        rw [setDisplays_length]
      simp only [showPanel]
      rw [setDisplays_countP]
      rw [if_pos]
      refine ⟨by exact_mod_cast h0j, ?_⟩
      rw [hlen]
      push_cast
      omega
  · intro hout k h
    have h' : k < s.children.length := by
      have := h
      simp only [showPanel] at this
      rwa [setDisplays_length] at this
    have := setDisplays_get i s.children 0 k h h'
    simp only [showPanel]
    rw [this]
    have hne : ¬ ((k : ℤ) = i) := by
      have : (k : ℤ) < (s.children.length : ℤ) := by exact_mod_cast h'
      omega
    simp [hne]

theorem C6_showPanel_bounds_witness :
    (showPanel (showPanel (mkStats false).state 0) 1).children.countP isVisible = 1 ∧
    ((showPanel (mkStats false).state 5).children.get
        ⟨0, Nat.zero_lt_succ 1⟩).display = some "none" := by
  refine ⟨((C6_showPanel_bounds (mkStats false).state 0 1).1 (by decide) (by decide)
    (by decide) (by decide) (by decide)).2, ?_⟩
  exact (C6_showPanel_bounds (mkStats false).state 5 0).2 (by decide) 0
    (Nat.zero_lt_succ 1)

/-- Claim C8: `Stats` construction registers exactly the FPS panel first and
the MS panel second, and a third MB panel exactly when the environment
reports the memory capability (read once, as the `hasMemory` argument of the
model); so a default overlay has two children without memory querying and
three with it. -/
theorem C8_builtin_panels (hasMemory : Bool) :
    (mkStats hasMemory).state.children.map Child.label =
      (if hasMemory then ["FPS", "MS", "MB"] else ["FPS", "MS"]) ∧
    (mkStats hasMemory).state.children.length = (if hasMemory then 3 else 2) := by
  cases hasMemory <;> exact ⟨rfl, rfl⟩

/-- Claim C9: `Stats` construction ends by calling `showPanel(0)`, so
immediately after construction the first registered panel has display style
block and every other registered panel has display style none (and the
selection variable holds zero). -/
theorem C9_construction_shows_first (hasMemory : Bool) :
    (mkStats hasMemory).state.children.map Child.display =
      (if hasMemory then [some "block", some "none", some "none"]
       else [some "block", some "none"]) ∧
    (mkStats hasMemory).state.currentPanelIndex = 0 := by
  cases hasMemory <;> exact ⟨rfl, rfl⟩

/-- Claim C5 is false of the code: the `currentPanelIndex` property of the
object returned by `Stats` is a copy of the closure variable taken at return
time, so after `showPanel(1)` on a freshly constructed overlay the closure
variable holds one while the exposed property still holds zero. -/
theorem C5_currentPanelIndex_snapshot :
    (hostShowPanel (mkStats false) 1).currentPanelIndex = 0 ∧
    (hostShowPanel (mkStats false) 1).state.currentPanelIndex = 1 ∧
    (mkStats false).currentPanelIndex = 0 ∧
    ¬ (hostShowPanel (mkStats false) 1).currentPanelIndex = 1 := by
  refine ⟨rfl, rfl, rfl, ?_⟩
  decide

/-- Claim C10: `addPanel` only appends the given panel's root element, with
whatever display style it carries, after the existing children, which keep
their display styles; hence a visible (fresh) panel added after an in-range
`showPanel(i)` call leaves two registered panels visible at once. -/
theorem C10_addPanel_appends (s : OverlayState) (i : ℤ) (c : Child) :
    (addPanel (showPanel s i) c).children = (showPanel s i).children ++ [c] ∧
    (addPanel (showPanel s i) c).children.getLast? = some c ∧
    (0 ≤ i → i < (s.children.length : ℤ) → isVisible c = true →
      (addPanel (showPanel s i) c).children.countP isVisible = 2) := by
  refine ⟨rfl, by simp [addPanel], ?_⟩
  intro h0 hn hc
  simp only [addPanel, showPanel, List.countP_append]
  rw [setDisplays_countP]
  rw [if_pos ⟨by exact_mod_cast h0, by push_cast; omega⟩]
  simp [List.countP, List.countP.go, hc]

theorem C10_addPanel_appends_witness :
    (addPanel (showPanel (mkStats false).state 0) (freshChild "custom")).children =
      (showPanel (mkStats false).state 0).children ++ [freshChild "custom"] ∧
    (addPanel (showPanel (mkStats false).state 0)
        (freshChild "custom")).children.countP isVisible = 2 := by
  refine ⟨(C10_addPanel_appends (mkStats false).state 0 (freshChild "custom")).1, ?_⟩
  exact (C10_addPanel_appends (mkStats false).state 0 (freshChild "custom")).2.2
    (by decide) (by decide) (by decide)

/-- Counterexample to claim C7: at device pixel ratio one quarter, which is
positive, the scale factor is `round(1/4) = 0`, not at least one; the source
replaces only a falsy (zero) ratio by one and applies no minimum. -/
theorem C7_counterexample :
    (0 : ℚ) < 1 / 4 ∧ PRval (1 / 4) = jround (1 / 4) ∧ PRval (1 / 4) = 0 ∧
      ¬ (1 ≤ PRval (1 / 4)) := by
  have h4 : ((1 : ℚ) / 4) ≠ 0 := by norm_num
  have hv : PRval (1 / 4) = 0 := by
    simp only [PRval, if_neg h4, jround]
    norm_num
  refine ⟨by norm_num, by simp [PRval, h4], hv, ?_⟩
  rw [hv]
  norm_num

/-- Claim C7 as amended: for every positive device pixel ratio the scale
factor equals the ratio rounded to the nearest integer, and it is at least
one whenever the ratio is at least one half (for positive ratios below one
half it rounds to zero — the code has no minimum-1 clamp). -/
theorem C7_scale_factor_amended (dpr : ℚ) (h : 0 < dpr) :
    PRval dpr = jround dpr ∧ (1 / 2 ≤ dpr → 1 ≤ PRval dpr) := by
  have hne : dpr ≠ 0 := ne_of_gt h
  constructor
  · simp [PRval, hne]
  · intro hhalf
    have h1 : (1 : ℚ) ≤ dpr + 1 / 2 := by linarith
    simp only [PRval, hne, if_neg hne, jround]
    exact Int.le_floor.mpr (by exact_mod_cast h1)

theorem C7_scale_factor_amended_witness :
    (0 : ℚ) < 2 ∧ PRval 2 = jround 2 ∧ 1 ≤ PRval 2 :=
  ⟨by norm_num, (C7_scale_factor_amended 2 (by norm_num)).1,
    (C7_scale_factor_amended 2 (by norm_num)).2 (by norm_num)⟩

/-- Claim C3: the last operation of every `update(value, maxValue)` call is
the translucent capping rectangle over the new rightmost column — anchored
at the top of the graph region, one column wide — whose height argument is
exactly `round((1 - value/maxValue) * GRAPH_HEIGHT)` with no clamping by
`update` itself; when `maxValue` is zero the division makes that height
non-finite, and it is passed to the drawing primitive unmodified. -/
theorem C3_cap_height (p : Panel) (value maxValue : ℚ) :
    (p.updateOps value maxValue).getLast? =
      some (.fillRect (.fin (p.geom.GRAPH_X + p.geom.GRAPH_WIDTH - p.geom.PR))
        (.fin p.geom.GRAPH_Y) (.fin p.geom.PR)
        (capHeight value maxValue p.geom.GRAPH_HEIGHT)) ∧
    (maxValue ≠ 0 →
      capHeight value maxValue p.geom.GRAPH_HEIGHT =
        .fin ((jround ((1 - value / maxValue) * p.geom.GRAPH_HEIGHT) : ℤ) : ℚ)) ∧
    (maxValue = 0 →
      (capHeight value maxValue p.geom.GRAPH_HEIGHT).isFinite = false) := by
  refine ⟨rfl, ?_, ?_⟩
  · intro hm
    simp [capHeight, jsDiv, hm, jsSubFin, jsMulFin, jsRound]
  · intro hm
    subst hm
    have hd : jsDiv value 0 = .nan ∨ jsDiv value 0 = .inf ∨ jsDiv value 0 = .ninf := by
      simp only [jsDiv, if_pos rfl]
      split_ifs <;> simp
    have hmul : ∀ g : ℚ, (jsRound (jsMulFin .inf g)).isFinite = false ∧
        (jsRound (jsMulFin .ninf g)).isFinite = false ∧
        (jsRound (jsMulFin .nan g)).isFinite = false := by
      intro g
      refine ⟨?_, ?_, ?_⟩ <;> simp only [jsMulFin] <;> (try split_ifs) <;> rfl
    rcases hd with hd | hd | hd <;> simp only [capHeight, hd, jsSubFin] <;>
      first
        | exact (hmul _).1
        | exact (hmul _).2.1
        | exact (hmul _).2.2

theorem C3_cap_height_witness :
    capHeight 30 60 (mkGeom 80 48 1).GRAPH_HEIGHT = .fin 15 ∧
    (capHeight 30 0 (mkGeom 80 48 1).GRAPH_HEIGHT).isFinite = false := by
  have hgeom : panelFPS.geom = mkGeom 80 48 1 := rfl
  have hGH : (mkGeom 80 48 1).GRAPH_HEIGHT = 30 := by
    simp only [mkGeom, PRval, jround]
    norm_num
  have h1 := (C3_cap_height panelFPS 30 60).2.1 (by norm_num)
  have h2 := (C3_cap_height panelFPS 30 0).2.2 rfl
  rw [hgeom, hGH] at h1 h2
  rw [hGH]
  refine ⟨?_, h2⟩
  rw [h1]
  have : jround ((1 - 30 / 60) * 30) = 15 := by
    simp only [jround]
    norm_num
  rw [this]
  norm_num

theorem jsValString_round_fin (q : ℚ) :
    jsValString (jsRound (.fin q)) = toString (jround q) := by
  simp [jsRound, jsValString, jsNumToString, Rat.den_intCast, Rat.num_intCast]

/-- Claim C4: whenever the widened running minimum and maximum are the
finite numbers `mn` and `mx` (which they are after any real sequence of
update calls), the text drawn by `update(value, maxValue)` at the text
origin is the rounded value, the label, and the rounded running minimum and
maximum in parentheses, with a slash and the nominal maximum appended
exactly when the show-maximum flag is set — the format stated by the
specification. -/
theorem C4_text_format (p : Panel) (value maxValue mn mx : ℚ)
    (hmn : (stepStats p.stats value).min = .fin mn)
    (hmx : (stepStats p.stats value).max = .fin mx) :
    (p.updateOps value maxValue).get? 4 =
      some (.fillText (spec_update_text p.name p.showMaximum value maxValue mn mx)
        p.geom.TEXT_X p.geom.TEXT_Y) := by
  have htext : panelText p.name p.showMaximum value maxValue
      (stepStats p.stats value).min (stepStats p.stats value).max =
      spec_update_text p.name p.showMaximum value maxValue mn mx := by
    rw [hmn, hmx]
    have hps0 : (")" : String) ++ "/" = ")/" := by decide
    have hps : ∀ t : String, ")/" ++ t = ")" ++ ("/" ++ t) := by
      intro t
      rw [← String.append_assoc, hps0]
    cases hsm : p.showMaximum <;>
      simp [panelText, spec_update_text, jsValString_round_fin, String.append_assoc, hps]
  simp only [Panel.updateOps, List.get?]
  rw [htext]

theorem C4_text_format_witness :
    ((Panel.update tcNone panelFPS 10 60).updateOps 50 60).get? 4 =
      some (.fillText "50FPS (10-50)"
        (Panel.update tcNone panelFPS 10 60).geom.TEXT_X
        (Panel.update tcNone panelFPS 10 60).geom.TEXT_Y) ∧
    (stepStats (Panel.update tcNone panelFPS 10 60).stats 50).min = .fin 10 ∧
    (stepStats (Panel.update tcNone panelFPS 10 60).stats 50).max = .fin 50 := by
  have hmn : (stepStats (Panel.update tcNone panelFPS 10 60).stats 50).min = .fin 10 := by
    show jsMin (jsMin initStats.min (.fin 10)) (.fin 50) = .fin 10
    simp [initStats, jsMin]
    norm_num
  have hmx : (stepStats (Panel.update tcNone panelFPS 10 60).stats 50).max = .fin 50 := by
    show jsMax (jsMax initStats.max (.fin 10)) (.fin 50) = .fin 50
    simp [initStats, jsMax]
    norm_num
  have h := C4_text_format (Panel.update tcNone panelFPS 10 60) 50 60 10 50 hmn hmx
  have hname : (Panel.update tcNone panelFPS 10 60).name = "FPS" := rfl
  have hshow : (Panel.update tcNone panelFPS 10 60).showMaximum = false := rfl
  have hj50 : jround 50 = 50 := by simp only [jround]; norm_num
  have hj10 : jround 10 = 10 := by simp only [jround]; norm_num
  have hs : spec_update_text "FPS" false 50 60 10 50 = "50FPS (10-50)" := by
    simp only [spec_update_text, hj50, hj10]
    decide
  rw [hname, hshow, hs] at h
  exact ⟨h, hmn, hmx⟩

/-- Claim C1: in every `update(value, maxValue)` call, the sixth operation
scrolls the graph one column left — for every point of the target region
(origin `GRAPH_X`, width `GRAPH_WIDTH - PR`, full graph height), the pixel
after the blit equals the pixel one column (`PR`) to the right just before
the blit — and then the seventh operation fills the `PR`-wide, full-height
rectangle at the right edge of the graph region with the current display
color at full opacity (global alpha is one there, so the fill is opaque). -/
theorem C1_scroll_blit (tc : TextCover) (p : Panel) (value maxValue : ℚ) :
    (∀ px py : ℚ,
      p.geom.GRAPH_X ≤ px → px < p.geom.GRAPH_X + (p.geom.GRAPH_WIDTH - p.geom.PR) →
      p.geom.GRAPH_Y ≤ py → py < p.geom.GRAPH_Y + p.geom.GRAPH_HEIGHT →
      (Panel.ctxAfter tc p value maxValue 6).pixels px py =
        (Panel.ctxAfter tc p value maxValue 5).pixels (px + p.geom.PR) py) ∧
    (∀ px py : ℚ,
      p.geom.GRAPH_X + p.geom.GRAPH_WIDTH - p.geom.PR ≤ px →
      px < p.geom.GRAPH_X + p.geom.GRAPH_WIDTH →
      p.geom.GRAPH_Y ≤ py → py < p.geom.GRAPH_Y + p.geom.GRAPH_HEIGHT →
      (Panel.ctxAfter tc p value maxValue 7).pixels px py =
        .solid (p.evaluateStatsColor value maxValue)) := by
  have h56 : Panel.ctxAfter tc p value maxValue 6 =
      applyOp tc (Panel.ctxAfter tc p value maxValue 5)
        (.drawImageSelf (p.geom.GRAPH_X + p.geom.PR) p.geom.GRAPH_Y
          (p.geom.GRAPH_WIDTH - p.geom.PR) p.geom.GRAPH_HEIGHT
          p.geom.GRAPH_X p.geom.GRAPH_Y
          (p.geom.GRAPH_WIDTH - p.geom.PR) p.geom.GRAPH_HEIGHT) := rfl
  have h67 : Panel.ctxAfter tc p value maxValue 7 =
      applyOp tc (Panel.ctxAfter tc p value maxValue 6)
        (.fillRect (.fin (p.geom.GRAPH_X + p.geom.GRAPH_WIDTH - p.geom.PR))
          (.fin p.geom.GRAPH_Y) (.fin p.geom.PR) (.fin p.geom.GRAPH_HEIGHT)) := rfl
  have ha5 : (Panel.ctxAfter tc p value maxValue 5).globalAlpha = 1 := rfl
  have hf6 : (Panel.ctxAfter tc p value maxValue 6).fillStyle =
      p.evaluateStatsColor value maxValue := rfl
  have ha6 : (Panel.ctxAfter tc p value maxValue 6).globalAlpha = 1 := rfl
  constructor
  · intro px py h1 h2 h3 h4
    have hdw : 0 < p.geom.GRAPH_WIDTH - p.geom.PR := by linarith
    have hgh : 0 < p.geom.GRAPH_HEIGHT := by linarith
    have hin : inRect p.geom.GRAPH_X p.geom.GRAPH_Y
        (p.geom.GRAPH_WIDTH - p.geom.PR) p.geom.GRAPH_HEIGHT px py = true := by
      simp only [inRect, Bool.and_eq_true, decide_eq_true_eq]
      exact ⟨⟨⟨h1, h2⟩, h3⟩, h4⟩
    rw [h56]
    simp only [applyOp, hin, if_true, ha5, if_pos]
    rw [div_self (ne_of_gt hdw), div_self (ne_of_gt hgh), mul_one, mul_one]
    congr 1 <;> ring
  · intro px py h1 h2 h3 h4
    have h2' : px < (p.geom.GRAPH_X + p.geom.GRAPH_WIDTH - p.geom.PR) + p.geom.PR := by
      linarith
    have hin : inRect (p.geom.GRAPH_X + p.geom.GRAPH_WIDTH - p.geom.PR)
        p.geom.GRAPH_Y p.geom.PR p.geom.GRAPH_HEIGHT px py = true := by
      simp only [inRect, Bool.and_eq_true, decide_eq_true_eq]
      exact ⟨⟨⟨h1, h2'⟩, h3⟩, h4⟩
    rw [h67]
    simp only [applyOp, hin, if_true, hf6, ha6]
    simp [paint]

theorem C1_scroll_blit_witness :
    (Panel.ctxAfter tcNone panelFPS 30 60 6).pixels 3 15 =
      (Panel.ctxAfter tcNone panelFPS 30 60 5).pixels (3 + panelFPS.geom.PR) 15 ∧
    (Panel.ctxAfter tcNone panelFPS 30 60 7).pixels 76 15 = .solid "#0ff" := by
  have hPR : panelFPS.geom.PR = 1 := by
    show ((PRval 1 : ℤ) : ℚ) = 1
    simp only [PRval, jround]
    norm_num
  have hGX : panelFPS.geom.GRAPH_X = 3 := by
    show 3 * ((PRval 1 : ℤ) : ℚ) = 3
    rw [show ((PRval 1 : ℤ) : ℚ) = 1 from hPR]
    norm_num
  have hGY : panelFPS.geom.GRAPH_Y = 15 := by
    show 15 * ((PRval 1 : ℤ) : ℚ) = 15
    rw [show ((PRval 1 : ℤ) : ℚ) = 1 from hPR]
    norm_num
  have hGW : panelFPS.geom.GRAPH_WIDTH = 74 := by
    show ((80 : ℚ) - 6) * ((PRval 1 : ℤ) : ℚ) = 74
    rw [show ((PRval 1 : ℤ) : ℚ) = 1 from hPR]
    norm_num
  have hGH : panelFPS.geom.GRAPH_HEIGHT = 30 := by
    show ((48 : ℚ) - 18) * ((48 : ℚ) / 48) * ((PRval 1 : ℤ) : ℚ) = 30
    rw [show ((PRval 1 : ℤ) : ℚ) = 1 from hPR]
    norm_num
  have h := C1_scroll_blit tcNone panelFPS 30 60
  constructor
  · exact h.1 3 15 (by rw [hGX]) (by rw [hGX, hGW, hPR]; norm_num)
      (by rw [hGY]) (by rw [hGY, hGH]; norm_num)
  · exact h.2 76 15 (by rw [hGX, hGW, hPR]; norm_num)
      (by rw [hGX, hGW]; norm_num) (by rw [hGY]) (by rw [hGY, hGH]; norm_num)
